import Mathlib

/-!
A shallow embedding of the `spsc` bounded single-producer/single-consumer channel.

This file embeds the synchronization core of `exercise-1-spsc/src/lib.rs` in Lean.
The shared ring state (`message_buffer`, `read_index`, `write_index`,
`producer_counter`, `consumer_counter`) becomes an explicit record; `send`,
`recv` and the two `Drop` implementations become state-passing functions.

The Rust implementation guards every cursor inspection and update by a spinlock
(the `synchronizer` flag), so each loop iteration of `send`/`recv` executes its
critical section atomically with respect to the peer.  Interleaved executions of
the two threads are therefore modelled as sequences of atomic transitions
(`Step`/`Path` below), one per completed critical section; the spinlock itself
carries no data and is not represented in the state.

Cursors are `AtomicUsize` values that are only ever incremented one at a time;
they are modelled as unbounded `Nat` (a physical execution would need more than
`2 ^ 64` operations on one channel before `usize` wrap-around could matter).
The liveness counters are only ever moved from their initial value `1` to `0`
by the (at most one) destruction of the corresponding handle, so the truncated
`Nat` subtraction used for `fetch_sub(1)` agrees with the Rust semantics on all
executions that can occur.
-/

namespace Spsc

/-- The fixed compile-time ring capacity, `const BUFFER_SIZE: usize = 4096;`. -/
def BUFFER_SIZE : Nat := 4096

/-- The shared ring state jointly owned (via `Arc`) by the two handles:
the slot array `message_buffer : [UnsafeCell<Option<T>>; BUFFER_SIZE]`, the two
cursors `read_index`/`write_index`, and the two liveness counters. -/
structure ChannelState (T : Type) where
  message_buffer : List (Option T)
  read_index : Nat
  write_index : Nat
  producer_counter : Nat
  consumer_counter : Nat
deriving DecidableEq

/-- The state built by `SPSC::new` (lines 44-78 of lib.rs): all slots empty (`None`), both cursors
`0`, both liveness counters `1`. -/
def SPSC.new (T : Type) : ChannelState T :=
  { message_buffer := List.replicate BUFFER_SIZE none
    read_index := 0
    write_index := 0
    producer_counter := 1
    consumer_counter := 1 }

/-- Result of one call of `Producer::send` observed against a fixed shared
state: `ok st` is `return Ok(())` with updated shared state `st`; `err v st` is
`return Err(SendError(v))` with (unchanged) shared state `st`; `blocked st`
means the buffer-full guard failed, the loop released the lock and will retry
(with no interference the shared state is again `st`). -/
inductive SendOutcome (T : Type) where
  | ok (st : ChannelState T)
  | err (val : T) (st : ChannelState T)
  | blocked (st : ChannelState T)
deriving DecidableEq

/-- Result of one call of `Consumer::recv` against a fixed shared state:
`ok val st` is the success path, where `val : Option T` is the content taken
out of the slot *before* the `val.unwrap()` on line 148; `err st` is
`return Err(RecvError)`; `blocked st` means neither guard fired and the loop
retries. -/
inductive RecvOutcome (T : Type) where
  | ok (val : Option T) (st : ChannelState T)
  | err (st : ChannelState T)
  | blocked (st : ChannelState T)
deriving DecidableEq

/-- One pass of `Producer::send` (lines 82-118 of lib.rs): the consumer-liveness
check on line 83, then one iteration of the locked loop body.  The guard on
line 104 is `write_index >= read_index && write_index < read_index + BUFFER_SIZE`;
on success the value is written to slot `write_index % BUFFER_SIZE` and
`write_index` is incremented. -/
def Producer.send {T : Type} (st : ChannelState T) (val : T) : SendOutcome T :=
  if st.consumer_counter = 0 then
    .err val st
  else if st.write_index ≥ st.read_index ∧ st.write_index < st.read_index + BUFFER_SIZE then
    .ok { st with
          message_buffer := st.message_buffer.set (st.write_index % BUFFER_SIZE) (some val)
          write_index := st.write_index + 1 }
  else
    .blocked st

/-- One pass of the locked loop of `Consumer::recv` (lines 122-153 of lib.rs):
the closed-and-drained check on line 129, then the `read_index < write_index`
branch that `replace(None)`s slot `read_index % BUFFER_SIZE` and increments
`read_index`. -/
def Consumer.recv {T : Type} (st : ChannelState T) : RecvOutcome T :=
  if st.read_index = st.write_index ∧ st.producer_counter = 0 then
    .err st
  else if st.read_index < st.write_index then
    .ok (st.message_buffer.getD (st.read_index % BUFFER_SIZE) none)
      { st with
        message_buffer := st.message_buffer.set (st.read_index % BUFFER_SIZE) none
        read_index := st.read_index + 1 }
  else
    .blocked st

/-- Destruction of the producer handle, `impl Drop for Producer` (lines 167-171):
`producer_counter.fetch_sub(1)`.
The handle is dropped at most once, so the counter goes `1 ↦ 0` and the
truncated subtraction matches the wrapping `fetch_sub`. -/
def Producer.drop {T : Type} (st : ChannelState T) : ChannelState T :=
  { st with producer_counter := st.producer_counter - 1 }

/-- Destruction of the consumer handle, `impl Drop for Consumer` (lines 173-177):
`consumer_counter.fetch_sub(1)`. -/
def Consumer.drop {T : Type} (st : ChannelState T) : ChannelState T :=
  { st with consumer_counter := st.consumer_counter - 1 }

/-! ## Interleaved executions

A `World` pairs the shared ring state with the existence of the two handles.
Rust's ownership discipline is what makes the liveness protocol correct, so it
is part of the model: `send` can only be called while the `Producer` handle
exists, `recv` only while the `Consumer` handle exists, and each handle is
dropped at most once. -/

/-- The shared state together with which handles still exist. -/
structure World (T : Type) where
  chan : ChannelState T
  producerAlive : Bool
  consumerAlive : Bool
deriving DecidableEq

/-- The world right after `channel()` / `SPSC::new()`: both handles exist. -/
def World.init (T : Type) : World T :=
  { chan := SPSC.new T, producerAlive := true, consumerAlive := true }

/-- Observable events of an execution: a `send` call that returned `Ok` (with
the value sent), a `recv` call that returned `Ok` (with the value received),
and the destruction of either handle.  Calls that return an error or spin do
not change the shared state and hence add no transition. -/
inductive Event (T : Type) where
  | send (v : T)
  | recv (v : T)
  | dropProducer
  | dropConsumer
deriving DecidableEq

/-- One atomic transition of the channel.  The spinlock serializes the critical
sections, so an interleaved two-thread execution is a sequence of these. -/
inductive Step (T : Type) : World T → Event T → World T → Prop where
  | send {w : World T} {v : T} {st' : ChannelState T}
      (halive : w.producerAlive = true)
      (hsend : Producer.send w.chan v = .ok st') :
      Step T w (.send v) { chan := st', producerAlive := w.producerAlive, consumerAlive := w.consumerAlive }
  | recv {w : World T} {v : T} {st' : ChannelState T}
      (halive : w.consumerAlive = true)
      (hrecv : Consumer.recv w.chan = .ok (some v) st') :
      Step T w (.recv v) { chan := st', producerAlive := w.producerAlive, consumerAlive := w.consumerAlive }
  | dropProducer {w : World T}
      (halive : w.producerAlive = true) :
      Step T w .dropProducer { chan := Producer.drop w.chan, producerAlive := false, consumerAlive := w.consumerAlive }
  | dropConsumer {w : World T}
      (halive : w.consumerAlive = true) :
      Step T w .dropConsumer { chan := Consumer.drop w.chan, producerAlive := w.producerAlive, consumerAlive := false }

/-- A finite execution: a chain of `Step`s labelled by its event list. -/
inductive Path (T : Type) : World T → List (Event T) → World T → Prop where
  | nil {w : World T} : Path T w [] w
  | cons {w w₁ w₂ : World T} {e : Event T} {es : List (Event T)}
      (hstep : Step T w e w₁) (hrest : Path T w₁ es w₂) : Path T w (e :: es) w₂

/-- The values sent (in order) during an event list. -/
def sentOf {T : Type} (es : List (Event T)) : List T :=
  es.filterMap fun e => match e with | .send v => some v | _ => none

/-- The values received (in order) during an event list. -/
def recvOf {T : Type} (es : List (Event T)) : List T :=
  es.filterMap fun e => match e with | .recv v => some v | _ => none

/-- The not-yet-consumed payloads still resident in the ring: the contents of
the live logical slots `read_index ≤ k < write_index`, in logical order. -/
def residents {T : Type} (st : ChannelState T) : List T :=
  (List.range' st.read_index (st.write_index - st.read_index)).filterMap
    fun k => st.message_buffer.getD (k % BUFFER_SIZE) none

/-! ## The fine-grained structure of a `send` call

`Producer.send` reads `consumer_counter` once, on line 83, before entering its
retry loop; the locked loop body (lines 88-116) reads only the two cursors.
To reason about a whole call in the presence of consumer interference, the
call is modelled as: one liveness check against the state at entry, then one
loop iteration per observed shared state (the consumer may change the state
between iterations). -/

/-- One iteration of the retry loop of `Producer::send` (lines 88-116): read
both cursors under the lock; if there is room, write the value into slot
`write_index % BUFFER_SIZE`, increment `write_index` and return; otherwise
release the lock and retry.  No path through the body produces a `SendError`,
and the body never reads `consumer_counter`. -/
def sendLoopBody {T : Type} (st : ChannelState T) (val : T) : Option (ChannelState T) :=
  if st.write_index ≥ st.read_index ∧ st.write_index < st.read_index + BUFFER_SIZE then
    some { st with
           message_buffer := st.message_buffer.set (st.write_index % BUFFER_SIZE) (some val)
           write_index := st.write_index + 1 }
  else
    none

/-- Run the retry loop over the successive shared states it observes: the
first iteration that finds room completes the call.  If the list of observed
states is exhausted the call is still spinning (`none`) — it has not returned. -/
def sendLoop {T : Type} (val : T) : List (ChannelState T) → Option (ChannelState T)
  | [] => none
  | st :: rest =>
    match sendLoopBody st val with
    | some st' => some st'
    | none => sendLoop val rest

/-- A whole `Producer::send` call: the single consumer-liveness check against
the entry state (line 83), then the retry loop over the observed states.
`Except.error val` is `Err(SendError(val))`; `Except.ok (some st)` is
`Ok(())` leaving shared state `st`; `Except.ok none` means the call is still
spinning. -/
def sendCall {T : Type} (entry : ChannelState T) (val : T)
    (obs : List (ChannelState T)) : Except T (Option (ChannelState T)) :=
  if entry.consumer_counter = 0 then
    .error val
  else
    .ok (sendLoop val (entry :: obs))

/-! ## The ring invariant -/

/-- Two logical indices that lie in a common window of fewer than
`BUFFER_SIZE` positions occupy distinct physical slots. -/
theorem mod_ne_of_window {a b : Nat} (h1 : a < b) (h2 : b < a + BUFFER_SIZE) :
    a % BUFFER_SIZE ≠ b % BUFFER_SIZE := by
  intro h
  have hdvd : BUFFER_SIZE ∣ b - a := (Nat.modEq_iff_dvd' h1.le).mp h
  have := Nat.le_of_dvd (by omega) hdvd
  omega

theorem getD_set_self {α : Type} (l : List α) (i : Nat) (a d : α) (h : i < l.length) :
    (l.set i a).getD i d = a := by
  simp [List.getD, List.getElem?_set_self, h]

theorem getD_set_ne {α : Type} (l : List α) (i j : Nat) (a d : α) (h : i ≠ j) :
    (l.set i a).getD j d = l.getD j d := by
  simp [List.getD, List.getElem?_set_ne h]

theorem getD_replicate {α : Type} (n i : Nat) (a d : α) :
    (List.replicate n a).getD i d = if i < n then a else d := by
  simp [List.getD, List.getElem?_replicate]
  split <;> simp

/-- The ring invariant, relating the shared state to the ghost histories
`sent` (all values successfully sent so far, in call order) and `received`
(all values successfully received so far, in call order). -/
structure Inv {T : Type} (st : ChannelState T) (sent received : List T) : Prop where
  buf_len : st.message_buffer.length = BUFFER_SIZE
  r_le_w : st.read_index ≤ st.write_index
  w_le : st.write_index ≤ st.read_index + BUFFER_SIZE
  sent_len : sent.length = st.write_index
  received_eq : received = sent.take st.read_index
  live : ∀ k, st.read_index ≤ k → k < st.write_index →
      st.message_buffer.getD (k % BUFFER_SIZE) none = sent[k]?
  dead : ∀ j, j < BUFFER_SIZE →
      (∀ k, st.read_index ≤ k → k < st.write_index → k % BUFFER_SIZE ≠ j) →
      st.message_buffer.getD j none = none

/-- The handle-liveness invariant: each liveness counter is `1` exactly while
the corresponding handle still exists. -/
structure WInv {T : Type} (w : World T) : Prop where
  pc : w.chan.producer_counter = if w.producerAlive then 1 else 0
  cc : w.chan.consumer_counter = if w.consumerAlive then 1 else 0

theorem inv_init (T : Type) : Inv (SPSC.new T) [] [] := by
  refine ⟨?_, ?_, ?_, ?_, ?_, ?_, ?_⟩ <;> dsimp only [SPSC.new]
  · exact List.length_replicate _ _
  · exact Nat.le_refl _
  · exact Nat.zero_le _
  · rfl
  · rfl
  · intro k hk1 hk2; omega
  · intro j hj hnone
    rw [getD_replicate]
    split <;> rfl

theorem winv_init (T : Type) : WInv (World.init T) := by
  constructor <;> simp [World.init, SPSC.new]

/-- Inversion of a successful `send`: the liveness check passed, there was
room, and the new state is the old one with the value written into slot
`write_index % BUFFER_SIZE` and `write_index` incremented. -/
theorem send_ok_inversion {T : Type} {st : ChannelState T} {v : T} {st' : ChannelState T}
    (hs : Producer.send st v = .ok st') :
    st.consumer_counter ≠ 0 ∧ st.read_index ≤ st.write_index ∧
    st.write_index < st.read_index + BUFFER_SIZE ∧
    st' = { st with
            message_buffer := st.message_buffer.set (st.write_index % BUFFER_SIZE) (some v)
            write_index := st.write_index + 1 } := by
  unfold Producer.send at hs
  split at hs
  · exact absurd hs (by simp)
  · split at hs
    · next hcc hroom =>
      exact ⟨hcc, hroom.1, hroom.2, by injection hs with h; exact h.symm⟩
    · exact absurd hs (by simp)

/-- Inversion of a successful `recv`: the channel was not closed-and-drained,
there was a pending value, the returned option is the content of slot
`read_index % BUFFER_SIZE`, and the new state empties that slot and increments
`read_index`. -/
theorem recv_ok_inversion {T : Type} {st : ChannelState T} {o : Option T} {st' : ChannelState T}
    (hr : Consumer.recv st = .ok o st') :
    st.read_index < st.write_index ∧
    o = st.message_buffer.getD (st.read_index % BUFFER_SIZE) none ∧
    st' = { st with
            message_buffer := st.message_buffer.set (st.read_index % BUFFER_SIZE) none
            read_index := st.read_index + 1 } := by
  unfold Consumer.recv at hr
  split at hr
  · exact absurd hr (by simp)
  · split at hr
    · next hclosed hlt =>
      refine ⟨hlt, ?_, ?_⟩
      · injection hr with h1 h2; exact h1.symm
      · injection hr with h1 h2; exact h2.symm
    · exact absurd hr (by simp)

/-- A successful `send` preserves the ring invariant, extending the sent
history by the sent value. -/
theorem send_preserves_inv {T : Type} {st : ChannelState T} {v : T} {st' : ChannelState T}
    {sent received : List T} (hs : Producer.send st v = .ok st')
    (hinv : Inv st sent received) : Inv st' (sent ++ [v]) received := by
  obtain ⟨hcc, hge, hroom, hst'⟩ := send_ok_inversion hs
  obtain ⟨buf_len, r_le_w, w_le, sent_len, received_eq, live, dead⟩ := hinv
  subst hst'
  have hwlt : st.write_index % BUFFER_SIZE < st.message_buffer.length := by
    rw [buf_len]; exact Nat.mod_lt _ (by decide)
  refine ⟨?_, ?_, ?_, ?_, ?_, ?_, ?_⟩ <;> dsimp only
  · rw [List.length_set]; exact buf_len
  · omega
  · omega
  · rw [List.length_append, List.length_singleton, sent_len]
  · rw [received_eq, List.take_append_of_le_length (by omega)]
  · intro k hk1 hk2
    rcases Nat.lt_or_ge k st.write_index with hk | hk
    · have hne : k % BUFFER_SIZE ≠ st.write_index % BUFFER_SIZE :=
        mod_ne_of_window hk (by omega)
      rw [getD_set_ne _ _ _ _ _ (Ne.symm hne), live k hk1 hk,
        List.getElem?_append_left (by omega)]
    · have hkw : k = st.write_index := by omega
      subst hkw
      rw [getD_set_self _ _ _ _ hwlt, ← sent_len, List.getElem?_concat_length]
  · intro j hj hnone
    have hne : st.write_index % BUFFER_SIZE ≠ j :=
      hnone st.write_index (by omega) (by omega)
    rw [getD_set_ne _ _ _ _ _ hne]
    exact dead j hj fun k hk1 hk2 => hnone k hk1 (by omega)

/-- A successful `recv` preserves the ring invariant when the slot content is
`some v`, extending the received history by `v`. -/
theorem recv_preserves_inv {T : Type} {st : ChannelState T} {v : T} {st' : ChannelState T}
    {sent received : List T} (hr : Consumer.recv st = .ok (some v) st')
    (hinv : Inv st sent received) : Inv st' sent (received ++ [v]) := by
  obtain ⟨hlt, ho, hst'⟩ := recv_ok_inversion hr
  obtain ⟨buf_len, r_le_w, w_le, sent_len, received_eq, live, dead⟩ := hinv
  subst hst'
  have hrlt : st.read_index % BUFFER_SIZE < st.message_buffer.length := by
    rw [buf_len]; exact Nat.mod_lt _ (by decide)
  have hget : sent[st.read_index]? = some v := by
    rw [← live st.read_index (Nat.le_refl _) hlt, ← ho]
  refine ⟨?_, ?_, ?_, ?_, ?_, ?_, ?_⟩ <;> dsimp only
  · rw [List.length_set]; exact buf_len
  · omega
  · omega
  · exact sent_len
  · rw [received_eq, List.take_succ, hget, Option.toList_some]
  · intro k hk1 hk2
    have hne : st.read_index % BUFFER_SIZE ≠ k % BUFFER_SIZE :=
      mod_ne_of_window (by omega) (by omega)
    rw [getD_set_ne _ _ _ _ _ hne]
    exact live k (by omega) hk2
  · intro j hj hnone
    rcases eq_or_ne (st.read_index % BUFFER_SIZE) j with hje | hje
    · subst hje; rw [getD_set_self _ _ _ _ hrlt]
    · rw [getD_set_ne _ _ _ _ _ hje]
      refine dead j hj fun k hk1 hk2 => ?_
      rcases Nat.eq_or_lt_of_le hk1 with hk | hk
      · subst hk; exact hje
      · exact hnone k hk hk2

@[simp]
theorem sentOf_one_send {T : Type} (v : T) : sentOf [Event.send v] = [v] := rfl

@[simp]
theorem sentOf_one_recv {T : Type} (v : T) : sentOf [Event.recv v] = [] := rfl

@[simp]
theorem sentOf_one_dropP {T : Type} : sentOf (T := T) [Event.dropProducer] = [] := rfl

@[simp]
theorem sentOf_one_dropC {T : Type} : sentOf (T := T) [Event.dropConsumer] = [] := rfl

@[simp]
theorem recvOf_one_send {T : Type} (v : T) : recvOf [Event.send v] = [] := rfl

@[simp]
theorem recvOf_one_recv {T : Type} (v : T) : recvOf [Event.recv v] = [v] := rfl

@[simp]
theorem recvOf_one_dropP {T : Type} : recvOf (T := T) [Event.dropProducer] = [] := rfl

@[simp]
theorem recvOf_one_dropC {T : Type} : recvOf (T := T) [Event.dropConsumer] = [] := rfl

theorem sentOf_cons {T : Type} (e : Event T) (es : List (Event T)) :
    sentOf (e :: es) = sentOf [e] ++ sentOf es := by
  cases e <;> rfl

theorem recvOf_cons {T : Type} (e : Event T) (es : List (Event T)) :
    recvOf (e :: es) = recvOf [e] ++ recvOf es := by
  cases e <;> rfl

/-- A successful `send` leaves `read_index` and both liveness counters
untouched. -/
theorem send_frame {T : Type} {st : ChannelState T} {v : T} {st' : ChannelState T}
    (hs : Producer.send st v = .ok st') :
    st'.read_index = st.read_index ∧
    st'.producer_counter = st.producer_counter ∧
    st'.consumer_counter = st.consumer_counter := by
  obtain ⟨-, -, -, hst'⟩ := send_ok_inversion hs
  subst hst'; exact ⟨rfl, rfl, rfl⟩

/-- A successful `recv` leaves `write_index` and both liveness counters
untouched. -/
theorem recv_frame {T : Type} {st : ChannelState T} {o : Option T} {st' : ChannelState T}
    (hr : Consumer.recv st = .ok o st') :
    st'.write_index = st.write_index ∧
    st'.producer_counter = st.producer_counter ∧
    st'.consumer_counter = st.consumer_counter := by
  obtain ⟨-, -, hst'⟩ := recv_ok_inversion hr
  subst hst'; exact ⟨rfl, rfl, rfl⟩

/-- One atomic transition preserves both invariants, extending the ghost
histories with the values of its event. -/
theorem step_preserves {T : Type} {w w' : World T} {e : Event T}
    (hstep : Step T w e w') {sent received : List T}
    (hinv : Inv w.chan sent received) (hwinv : WInv w) :
    Inv w'.chan (sent ++ sentOf [e]) (received ++ recvOf [e]) ∧ WInv w' := by
  cases hstep with
  | send halive hsend =>
      obtain ⟨-, hpc, hcc⟩ := send_frame hsend
      refine ⟨by simpa using send_preserves_inv hsend hinv, ?_, ?_⟩ <;> dsimp only
      · rw [hpc]; exact hwinv.pc
      · rw [hcc]; exact hwinv.cc
  | recv halive hrecv =>
      obtain ⟨-, hpc, hcc⟩ := recv_frame hrecv
      refine ⟨by simpa using recv_preserves_inv hrecv hinv, ?_, ?_⟩ <;> dsimp only
      · rw [hpc]; exact hwinv.pc
      · rw [hcc]; exact hwinv.cc
  | dropProducer halive =>
      obtain ⟨buf_len, r_le_w, w_le, sent_len, received_eq, live, dead⟩ := hinv
      refine ⟨?_, ?_, ?_⟩ <;> dsimp only [Producer.drop]
      · have h1 : sent ++ sentOf (T := T) [Event.dropProducer] = sent := by simp
        have h2 : received ++ recvOf (T := T) [Event.dropProducer] = received := by simp
        rw [h1, h2]
        exact ⟨buf_len, r_le_w, w_le, sent_len, received_eq, live, dead⟩
      · rw [hwinv.pc, halive]; simp
      · exact hwinv.cc
  | dropConsumer halive =>
      obtain ⟨buf_len, r_le_w, w_le, sent_len, received_eq, live, dead⟩ := hinv
      refine ⟨?_, ?_, ?_⟩ <;> dsimp only [Consumer.drop]
      · have h1 : sent ++ sentOf (T := T) [Event.dropConsumer] = sent := by simp
        have h2 : received ++ recvOf (T := T) [Event.dropConsumer] = received := by simp
        rw [h1, h2]
        exact ⟨buf_len, r_le_w, w_le, sent_len, received_eq, live, dead⟩
      · exact hwinv.pc
      · rw [hwinv.cc, halive]; simp

/-- The invariants hold along every execution, with the histories accumulating
the path's events. -/
theorem path_inv {T : Type} {w₀ : World T} {es : List (Event T)} {w₁ : World T}
    (hp : Path T w₀ es w₁) {sent received : List T}
    (hinv : Inv w₀.chan sent received) (hwinv : WInv w₀) :
    Inv w₁.chan (sent ++ sentOf es) (received ++ recvOf es) ∧ WInv w₁ := by
  induction hp generalizing sent received with
  | nil => simpa [sentOf, recvOf] using And.intro hinv hwinv
  | cons hstep hrest ih =>
      obtain ⟨hinv₁, hwinv₁⟩ := step_preserves hstep hinv hwinv
      have := ih hinv₁ hwinv₁
      rwa [List.append_assoc, List.append_assoc, ← sentOf_cons, ← recvOf_cons] at this

/-- Every state reachable from the freshly created channel satisfies both
invariants, with histories read off the event list. -/
theorem reachable_inv {T : Type} {es : List (Event T)} {w : World T}
    (hp : Path T (World.init T) es w) :
    Inv w.chan (sentOf es) (recvOf es) ∧ WInv w := by
  have := path_inv hp (inv_init T) (winv_init T)
  simpa using this

/-! ## Permanence of handle destruction -/

/-- The function `Consumer.recv` returns `RecvError` exactly when the buffer is drained and
the producer counter is zero; the state is returned unchanged. -/
theorem recv_err_iff {T : Type} (st : ChannelState T) :
    Consumer.recv st = .err st ↔
      st.read_index = st.write_index ∧ st.producer_counter = 0 := by
  unfold Consumer.recv
  constructor
  · intro h
    split at h
    · next hc => exact hc
    · split at h <;> exact absurd h (by simp)
  · intro hc
    rw [if_pos hc]

/-- The function `Consumer.recv` never fabricates a state on its error path. -/
theorem recv_err_inversion {T : Type} {st st' : ChannelState T}
    (h : Consumer.recv st = .err st') :
    st' = st ∧ st.read_index = st.write_index ∧ st.producer_counter = 0 := by
  unfold Consumer.recv at h
  split at h
  · next hc => injection h with h1; exact ⟨h1.symm, hc⟩
  · split at h <;> exact absurd h (by simp)

/-- Once the producer handle is gone no step can resurrect it: along any
continuation, `producerAlive` stays `false` and no `dropProducer` event occurs. -/
theorem producer_gone_path {T : Type} {w : World T} {es : List (Event T)} {w' : World T}
    (hp : Path T w es w') (h : w.producerAlive = false) :
    w'.producerAlive = false ∧ Event.dropProducer ∉ es := by
  induction hp with
  | nil => exact ⟨h, by simp⟩
  | cons hstep hrest ih =>
      cases hstep with
      | send halive hsend =>
          obtain ⟨h1, h2⟩ := ih h
          exact ⟨h1, by simp [h2]⟩
      | recv halive hrecv =>
          obtain ⟨h1, h2⟩ := ih h
          exact ⟨h1, by simp [h2]⟩
      | dropProducer halive => rw [h] at halive; cases halive
      | dropConsumer halive =>
          obtain ⟨h1, h2⟩ := ih h
          exact ⟨h1, by simp [h2]⟩

/-- Once the consumer handle is gone no step can resurrect it. -/
theorem consumer_gone_path {T : Type} {w : World T} {es : List (Event T)} {w' : World T}
    (hp : Path T w es w') (h : w.consumerAlive = false) :
    w'.consumerAlive = false ∧ Event.dropConsumer ∉ es := by
  induction hp with
  | nil => exact ⟨h, by simp⟩
  | cons hstep hrest ih =>
      cases hstep with
      | send halive hsend =>
          obtain ⟨h1, h2⟩ := ih h
          exact ⟨h1, by simp [h2]⟩
      | recv halive hrecv =>
          obtain ⟨h1, h2⟩ := ih h
          exact ⟨h1, by simp [h2]⟩
      | dropProducer halive =>
          obtain ⟨h1, h2⟩ := ih h
          exact ⟨h1, by simp [h2]⟩
      | dropConsumer halive => rw [h] at halive; cases halive

/-- The "channel closed and drained" configuration is preserved by every step. -/
theorem closed_step {T : Type} {w : World T} {e : Event T} {w' : World T}
    (hstep : Step T w e w')
    (h : w.producerAlive = false ∧ w.chan.read_index = w.chan.write_index ∧
      w.chan.producer_counter = 0) :
    w'.producerAlive = false ∧ w'.chan.read_index = w'.chan.write_index ∧
      w'.chan.producer_counter = 0 := by
  obtain ⟨hgone, hdrained, hpc⟩ := h
  cases hstep with
  | send halive hsend => rw [hgone] at halive; cases halive
  | recv halive hrecv =>
      obtain ⟨hlt, -, -⟩ := recv_ok_inversion hrecv
      omega
  | dropProducer halive => rw [hgone] at halive; cases halive
  | dropConsumer halive =>
      exact ⟨hgone, hdrained, hpc⟩

/-- The "channel closed and drained" configuration is preserved along every
continuation of the execution. -/
theorem closed_path {T : Type} {w : World T} {es : List (Event T)} {w' : World T}
    (hp : Path T w es w')
    (h : w.producerAlive = false ∧ w.chan.read_index = w.chan.write_index ∧
      w.chan.producer_counter = 0) :
    w'.producerAlive = false ∧ w'.chan.read_index = w'.chan.write_index ∧
      w'.chan.producer_counter = 0 := by
  induction hp with
  | nil => exact h
  | cons hstep hrest ih => exact ih (closed_step hstep h)

/-- Reading out a window of logical indices of `s` yields the corresponding
infix of `s`. -/
theorem filterMap_range_getElem {α : Type} (s : List α) :
    ∀ (n a : Nat), a + n ≤ s.length →
      (List.range' a n).filterMap (fun k => s[k]?) = (s.drop a).take n := by
  intro n
  induction n with
  | zero => intro a h; simp
  | succ n ih =>
      intro a h
      have ha : a < s.length := by omega
      rw [List.range'_succ, List.filterMap_cons, List.getElem?_eq_getElem ha]
      dsimp only
      rw [ih (a + 1) (by omega), List.drop_eq_getElem_cons ha, List.take_succ_cons]

/-- Under the ring invariant, the resident payloads are exactly the sent
values that have not been received yet, in order. -/
theorem residents_eq {T : Type} {st : ChannelState T} {sent received : List T}
    (hinv : Inv st sent received) : residents st = sent.drop st.read_index := by
  unfold residents
  have hrw := hinv.r_le_w
  have hcong : ∀ k ∈ List.range' st.read_index (st.write_index - st.read_index),
      st.message_buffer.getD (k % BUFFER_SIZE) none = sent[k]? := by
    intro k hk
    rw [List.mem_range'_1] at hk
    exact hinv.live k hk.1 (by omega)
  rw [List.filterMap_congr hcong,
    filterMap_range_getElem sent _ _ (by rw [hinv.sent_len]; omega)]
  have hlen : (sent.drop st.read_index).length = st.write_index - st.read_index := by
    rw [List.length_drop, hinv.sent_len]
  rw [← hlen, List.take_length]

/-- No loop iteration succeeds while every observed state has a full buffer. -/
theorem sendLoop_none {T : Type} (v : T) (l : List (ChannelState T))
    (h : ∀ s ∈ l, sendLoopBody s v = none) : sendLoop v l = none := by
  induction l with
  | nil => rfl
  | cons s rest ih =>
      have hs := h s (List.mem_cons_self s rest)
      unfold sendLoop
      rw [hs]
      exact ih fun s' hs' => h s' (List.mem_cons_of_mem _ hs')

/-! ## The claims -/

/-- C1: along every execution from a fresh channel, the sequence of values
returned by successful `recv` calls is exactly the first `read_index` values
passed to successful `send` calls, in `send`-call order — no reordering, no
loss, no duplication — for executions of any length, including ones whose
cursors exceed `BUFFER_SIZE` (wraparound does not corrupt order). -/
theorem C1_fifo_order {T : Type} {es : List (Event T)} {w : World T}
    (hp : Path T (World.init T) es w) :
    recvOf es = (sentOf es).take w.chan.read_index ∧
    recvOf es = (sentOf es).take (recvOf es).length := by
  obtain ⟨hinv, -⟩ := reachable_inv hp
  refine ⟨hinv.received_eq, ?_⟩
  have hlen : w.chan.read_index ≤ (sentOf es).length := by
    rw [hinv.sent_len]; exact hinv.r_le_w
  rw [hinv.received_eq, List.length_take, Nat.min_eq_left hlen]

theorem C1_fifo_order_witness :
    recvOf [Event.send 1, Event.send 2, Event.recv (1 : Nat)] =
      (sentOf [Event.send 1, Event.send 2, Event.recv (1 : Nat)]).take 1 ∧
    recvOf [Event.send 1, Event.send 2, Event.recv (1 : Nat)] =
      (sentOf [Event.send 1, Event.send 2, Event.recv (1 : Nat)]).take
        (recvOf [Event.send 1, Event.send 2, Event.recv (1 : Nat)]).length :=
  C1_fifo_order (Path.cons (Step.send rfl rfl)
    (Path.cons (Step.send rfl rfl) (Path.cons (Step.recv rfl rfl) Path.nil)))

/-- C2: `read_cursor ≤ write_cursor ≤ read_cursor + BUFFER_SIZE` holds in the
state produced by `SPSC::new`, is preserved by every successful `send` and
every successful `recv`, and consequently holds in every reachable state. -/
theorem C2_cursor_bounds {T : Type} :
    ((SPSC.new T).read_index ≤ (SPSC.new T).write_index ∧
      (SPSC.new T).write_index ≤ (SPSC.new T).read_index + BUFFER_SIZE) ∧
    (∀ (st : ChannelState T) (v : T) (st' : ChannelState T),
      Producer.send st v = .ok st' →
      st.read_index ≤ st.write_index → st.write_index ≤ st.read_index + BUFFER_SIZE →
      st'.read_index ≤ st'.write_index ∧ st'.write_index ≤ st'.read_index + BUFFER_SIZE) ∧
    (∀ (st : ChannelState T) (o : Option T) (st' : ChannelState T),
      Consumer.recv st = .ok o st' →
      st.read_index ≤ st.write_index → st.write_index ≤ st.read_index + BUFFER_SIZE →
      st'.read_index ≤ st'.write_index ∧ st'.write_index ≤ st'.read_index + BUFFER_SIZE) ∧
    (∀ (es : List (Event T)) (w : World T), Path T (World.init T) es w →
      w.chan.read_index ≤ w.chan.write_index ∧
      w.chan.write_index ≤ w.chan.read_index + BUFFER_SIZE) := by
  refine ⟨⟨Nat.le_refl _, Nat.zero_le _⟩, ?_, ?_, ?_⟩
  · intro st v st' hs h1 h2
    obtain ⟨-, hge, hroom, hst'⟩ := send_ok_inversion hs
    subst hst'; dsimp only; omega
  · intro st o st' hr h1 h2
    obtain ⟨hlt, -, hst'⟩ := recv_ok_inversion hr
    subst hst'; dsimp only; omega
  · intro es w hp
    obtain ⟨hinv, -⟩ := reachable_inv hp
    exact ⟨hinv.r_le_w, hinv.w_le⟩

theorem C2_cursor_bounds_witness :
    (0 : Nat) ≤ 1 ∧ (1 : Nat) ≤ 0 + BUFFER_SIZE :=
  (C2_cursor_bounds (T := Nat)).2.2.2 [Event.send 7] _
    (Path.cons (Step.send rfl rfl) Path.nil)

/-- C3: `recv` returns `RecvError` exactly when `producer_counter = 0` and
`read_index = write_index` at observation time, and this state is permanent:
from any reachable world in which `recv` fails, `recv` fails again in every
world reachable from it (liveness only ever transitions `1 → 0` and no new
values can arrive). -/
theorem C3_recv_error_permanent {T : Type} :
    (∀ st : ChannelState T,
      Consumer.recv st = .err st ↔
        st.read_index = st.write_index ∧ st.producer_counter = 0) ∧
    (∀ st st' : ChannelState T, Consumer.recv st = .err st' → st' = st) ∧
    (∀ (es : List (Event T)) (w : World T), Path T (World.init T) es w →
      Consumer.recv w.chan = .err w.chan →
      ∀ (es' : List (Event T)) (w' : World T), Path T w es' w' →
        Consumer.recv w'.chan = .err w'.chan) := by
  refine ⟨recv_err_iff, fun st st' h => (recv_err_inversion h).1, ?_⟩
  intro es w hp herr es' w' hp'
  obtain ⟨hdrained, hpc⟩ := (recv_err_iff w.chan).mp herr
  obtain ⟨-, hwinv⟩ := reachable_inv hp
  have hgone : w.producerAlive = false := by
    have := hwinv.pc
    cases hb : w.producerAlive
    · rfl
    · rw [hb] at this; simp at this; omega
  have hclosed := closed_path hp' ⟨hgone, hdrained, hpc⟩
  exact (recv_err_iff w'.chan).mpr ⟨hclosed.2.1, hclosed.2.2⟩

theorem C3_recv_error_permanent_witness :
    Consumer.recv (Consumer.drop (Producer.drop (SPSC.new Nat))) =
      .err (Consumer.drop (Producer.drop (SPSC.new Nat))) :=
  (C3_recv_error_permanent (T := Nat)).2.2 [Event.dropProducer] _
    (Path.cons (Step.dropProducer rfl) Path.nil) rfl
    [Event.dropConsumer] _ (Path.cons (Step.dropConsumer rfl) Path.nil)

/-- C4: if the consumer's liveness counter is `0` when `send(v)` is called,
`send` returns `Err(SendError(v))` carrying back exactly `v` and leaves the
whole ring state (buffer, both cursors, both liveness counters) unmodified. -/
theorem C4_send_error_unchanged {T : Type} (st : ChannelState T) (v : T)
    (h : st.consumer_counter = 0) :
    Producer.send st v = .err v st ∧
    ∀ (v' : T) (st' : ChannelState T), Producer.send st v = .err v' st' →
      v' = v ∧ st'.message_buffer = st.message_buffer ∧
      st'.read_index = st.read_index ∧ st'.write_index = st.write_index ∧
      st'.producer_counter = st.producer_counter ∧
      st'.consumer_counter = st.consumer_counter := by
  have h1 : Producer.send st v = .err v st := by
    unfold Producer.send; rw [if_pos h]
  refine ⟨h1, fun v' st' h2 => ?_⟩
  rw [h1] at h2
  injection h2 with hv hst
  exact ⟨hv.symm, by rw [← hst], by rw [← hst], by rw [← hst], by rw [← hst], by rw [← hst]⟩

theorem C4_send_error_unchanged_witness :
    Producer.send (Consumer.drop (SPSC.new Nat)) 42 =
      .err 42 (Consumer.drop (SPSC.new Nat)) :=
  (C4_send_error_unchanged (Consumer.drop (SPSC.new Nat)) 42 rfl).1

/-- C5: from any reachable state with room (`write_index < read_index +
BUFFER_SIZE`), a successful `send(v)` writes `v` into the previously empty slot
`write_index % BUFFER_SIZE`, advances `write_index` by exactly `1`, and changes
nothing else: every other slot, `read_index` and both liveness counters are
unchanged. -/
theorem C5_send_frame_effect {T : Type} {es : List (Event T)} {w : World T}
    (hp : Path T (World.init T) es w) (v : T) {st' : ChannelState T}
    (hroom : w.chan.write_index < w.chan.read_index + BUFFER_SIZE)
    (hs : Producer.send w.chan v = .ok st') :
    st'.write_index = w.chan.write_index + 1 ∧
    st'.read_index = w.chan.read_index ∧
    st'.producer_counter = w.chan.producer_counter ∧
    st'.consumer_counter = w.chan.consumer_counter ∧
    w.chan.message_buffer.getD (w.chan.write_index % BUFFER_SIZE) none = none ∧
    st'.message_buffer.getD (w.chan.write_index % BUFFER_SIZE) none = some v ∧
    ∀ j, j < BUFFER_SIZE → j ≠ w.chan.write_index % BUFFER_SIZE →
      st'.message_buffer.getD j none = w.chan.message_buffer.getD j none := by
  obtain ⟨hinv, -⟩ := reachable_inv hp
  obtain ⟨hcc, hge, hroom', hst'⟩ := send_ok_inversion hs
  have hempty : w.chan.message_buffer.getD (w.chan.write_index % BUFFER_SIZE) none = none := by
    apply hinv.dead _ (Nat.mod_lt _ (by decide))
    intro k hk1 hk2
    exact mod_ne_of_window hk2 (by omega)
  subst hst'
  refine ⟨rfl, rfl, rfl, rfl, hempty, ?_, ?_⟩
  · dsimp only
    rw [getD_set_self]
    rw [hinv.buf_len]
    exact Nat.mod_lt _ (by decide)
  · intro j hj hne
    dsimp only
    rw [getD_set_ne _ _ _ _ _ (Ne.symm hne)]

/-- The state of a fresh channel after one successful `send 5`. -/
theorem C5_send_frame_effect_witness :
    ({ message_buffer := (List.replicate BUFFER_SIZE (none : Option Nat)).set 0 (some 5)
       read_index := 0, write_index := 1, producer_counter := 1, consumer_counter := 1 }
      : ChannelState Nat).write_index = (SPSC.new Nat).write_index + 1 ∧
    ({ message_buffer := (List.replicate BUFFER_SIZE (none : Option Nat)).set 0 (some 5)
       read_index := 0, write_index := 1, producer_counter := 1, consumer_counter := 1 }
      : ChannelState Nat).read_index = (SPSC.new Nat).read_index ∧
    ({ message_buffer := (List.replicate BUFFER_SIZE (none : Option Nat)).set 0 (some 5)
       read_index := 0, write_index := 1, producer_counter := 1, consumer_counter := 1 }
      : ChannelState Nat).producer_counter = (SPSC.new Nat).producer_counter ∧
    ({ message_buffer := (List.replicate BUFFER_SIZE (none : Option Nat)).set 0 (some 5)
       read_index := 0, write_index := 1, producer_counter := 1, consumer_counter := 1 }
      : ChannelState Nat).consumer_counter = (SPSC.new Nat).consumer_counter ∧
    (SPSC.new Nat).message_buffer.getD ((SPSC.new Nat).write_index % BUFFER_SIZE) none = none ∧
    ({ message_buffer := (List.replicate BUFFER_SIZE (none : Option Nat)).set 0 (some 5)
       read_index := 0, write_index := 1, producer_counter := 1, consumer_counter := 1 }
      : ChannelState Nat).message_buffer.getD
        ((SPSC.new Nat).write_index % BUFFER_SIZE) none = some 5 ∧
    ∀ j, j < BUFFER_SIZE → j ≠ (SPSC.new Nat).write_index % BUFFER_SIZE →
      ({ message_buffer := (List.replicate BUFFER_SIZE (none : Option Nat)).set 0 (some 5)
         read_index := 0, write_index := 1, producer_counter := 1, consumer_counter := 1 }
        : ChannelState Nat).message_buffer.getD j none =
        (SPSC.new Nat).message_buffer.getD j none :=
  C5_send_frame_effect Path.nil 5 (by decide) rfl

/-- C6: from any reachable state with `read_index < write_index`, `recv`
returns the value stored in slot `read_index % BUFFER_SIZE`, empties exactly
that slot, and advances `read_index` by exactly `1`; the value returned is
precisely the `read_index`-th value ever sent (so the slot was written before
it is read), and `read_index` equals the number of values already delivered
(so no logical index is ever delivered twice). -/
theorem C6_recv_reads_slot {T : Type} {es : List (Event T)} {w : World T}
    (hp : Path T (World.init T) es w)
    (hlt : w.chan.read_index < w.chan.write_index) :
    Consumer.recv w.chan =
      .ok (w.chan.message_buffer.getD (w.chan.read_index % BUFFER_SIZE) none)
        { w.chan with
          message_buffer := w.chan.message_buffer.set (w.chan.read_index % BUFFER_SIZE) none
          read_index := w.chan.read_index + 1 } ∧
    w.chan.message_buffer.getD (w.chan.read_index % BUFFER_SIZE) none =
      (sentOf es)[w.chan.read_index]? ∧
    w.chan.read_index < (sentOf es).length ∧
    (recvOf es).length = w.chan.read_index := by
  obtain ⟨hinv, -⟩ := reachable_inv hp
  have hne : ¬(w.chan.read_index = w.chan.write_index ∧ w.chan.producer_counter = 0) := by
    intro h; omega
  refine ⟨?_, hinv.live _ (Nat.le_refl _) hlt, ?_, ?_⟩
  · unfold Consumer.recv
    rw [if_neg hne, if_pos hlt]
  · rw [hinv.sent_len]; exact hlt
  · rw [hinv.received_eq, List.length_take, hinv.sent_len]
    exact Nat.min_eq_left (Nat.le_of_lt hlt)

theorem C6_recv_reads_slot_witness :
    Consumer.recv {
        message_buffer := (List.replicate BUFFER_SIZE (none : Option Nat)).set 0 (some 9)
        read_index := 0, write_index := 1, producer_counter := 1, consumer_counter := 1 } =
      .ok (({ message_buffer := (List.replicate BUFFER_SIZE (none : Option Nat)).set 0 (some 9)
              read_index := 0, write_index := 1, producer_counter := 1, consumer_counter := 1 }
            : ChannelState Nat).message_buffer.getD (0 % BUFFER_SIZE) none)
        { message_buffer :=
            (((List.replicate BUFFER_SIZE (none : Option Nat)).set 0 (some 9)).set
              (0 % BUFFER_SIZE) none)
          read_index := 0 + 1, write_index := 1, producer_counter := 1, consumer_counter := 1 } ∧
    (({ message_buffer := (List.replicate BUFFER_SIZE (none : Option Nat)).set 0 (some 9)
        read_index := 0, write_index := 1, producer_counter := 1, consumer_counter := 1 }
      : ChannelState Nat).message_buffer.getD (0 % BUFFER_SIZE) none) =
      (sentOf [Event.send (9 : Nat)])[(0 : Nat)]? ∧
    (0 : Nat) < (sentOf [Event.send (9 : Nat)]).length ∧
    (recvOf [Event.send (9 : Nat)]).length = 0 :=
  C6_recv_reads_slot (Path.cons (Step.send rfl rfl) Path.nil) (by decide)

/-- C7: both liveness counters start at `1` in the state built by `SPSC::new`;
successful `send` and `recv` never change either counter; in every reachable
world each counter is `1` while its handle exists and `0` after it is dropped;
along any execution fragment the counters never increase (never reset); and
destruction happens exactly once: a `dropProducer`/`dropConsumer` step moves
the counter from `1` to `0`, marks the handle gone, and no later step of any
continuation can be another drop of the same handle. -/
theorem C7_liveness_transitions {T : Type} :
    ((SPSC.new T).producer_counter = 1 ∧ (SPSC.new T).consumer_counter = 1) ∧
    (∀ (st : ChannelState T) (v : T) (st' : ChannelState T),
      Producer.send st v = .ok st' →
      st'.producer_counter = st.producer_counter ∧
      st'.consumer_counter = st.consumer_counter) ∧
    (∀ (st : ChannelState T) (o : Option T) (st' : ChannelState T),
      Consumer.recv st = .ok o st' →
      st'.producer_counter = st.producer_counter ∧
      st'.consumer_counter = st.consumer_counter) ∧
    (∀ (es : List (Event T)) (w : World T), Path T (World.init T) es w →
      (w.chan.producer_counter = if w.producerAlive then 1 else 0) ∧
      (w.chan.consumer_counter = if w.consumerAlive then 1 else 0)) ∧
    (∀ (w : World T) (es : List (Event T)) (w' : World T), Path T w es w' →
      w'.chan.producer_counter ≤ w.chan.producer_counter ∧
      w'.chan.consumer_counter ≤ w.chan.consumer_counter) ∧
    (∀ (w w' : World T), Step T w .dropProducer w' →
      w'.chan.producer_counter = w.chan.producer_counter - 1 ∧
      w'.producerAlive = false ∧
      ∀ (es : List (Event T)) (w'' : World T), Path T w' es w'' →
        Event.dropProducer ∉ es) ∧
    (∀ (w w' : World T), Step T w .dropConsumer w' →
      w'.chan.consumer_counter = w.chan.consumer_counter - 1 ∧
      w'.consumerAlive = false ∧
      ∀ (es : List (Event T)) (w'' : World T), Path T w' es w'' →
        Event.dropConsumer ∉ es) := by
  refine ⟨⟨rfl, rfl⟩, ?_, ?_, ?_, ?_, ?_, ?_⟩
  · intro st v st' hs
    obtain ⟨-, hpc, hcc⟩ := send_frame hs
    exact ⟨hpc, hcc⟩
  · intro st o st' hr
    obtain ⟨-, hpc, hcc⟩ := recv_frame hr
    exact ⟨hpc, hcc⟩
  · intro es w hp
    obtain ⟨-, hwinv⟩ := reachable_inv hp
    exact ⟨hwinv.pc, hwinv.cc⟩
  · intro w es w' hp
    induction hp with
    | nil => exact ⟨Nat.le_refl _, Nat.le_refl _⟩
    | cons hstep hrest ih =>
        refine ⟨Nat.le_trans ih.1 ?_, Nat.le_trans ih.2 ?_⟩ <;>
        · cases hstep with
          | send halive hsend =>
              obtain ⟨-, hpc, hcc⟩ := send_frame hsend
              dsimp only; omega
          | recv halive hrecv =>
              obtain ⟨-, hpc, hcc⟩ := recv_frame hrecv
              dsimp only; omega
          | dropProducer halive => dsimp only [Producer.drop]; omega
          | dropConsumer halive => dsimp only [Consumer.drop]; omega
  · intro w w' hstep
    cases hstep with
    | dropProducer halive =>
        refine ⟨rfl, rfl, fun es w'' hp => ?_⟩
        exact (producer_gone_path hp rfl).2
  · intro w w' hstep
    cases hstep with
    | dropConsumer halive =>
        refine ⟨rfl, rfl, fun es w'' hp => ?_⟩
        exact (consumer_gone_path hp rfl).2

theorem C7_liveness_transitions_witness :
    ((Producer.drop (SPSC.new Nat)).producer_counter =
      if (false : Bool) then 1 else 0) ∧
    ((Producer.drop (SPSC.new Nat)).consumer_counter =
      if (true : Bool) then 1 else 0) :=
  (C7_liveness_transitions (T := Nat)).2.2.2.1 [Event.dropProducer] _
    (Path.cons (Step.dropProducer rfl) Path.nil)

/-- C8: conservation of payloads.  In every reachable world — for every order
of handle destruction — the sent values split exactly into the received values
followed by the payloads still resident in the ring, so each sent value occurs
exactly once among "delivered to the receiver" and "resident at teardown":
a value returned by `recv` is owned (and hence released) exactly once by its
receiver, and when the consumer handle is dropped, the shared buffer that the
last `Arc` tears down holds each undelivered value exactly once — its
destructor runs once, never zero times, never twice. -/
theorem C8_payload_conservation {T : Type} [DecidableEq T] {es : List (Event T)}
    {w : World T} (hp : Path T (World.init T) es w) (v : T) :
    sentOf es = recvOf es ++ residents w.chan ∧
    (sentOf es).count v = (recvOf es).count v + (residents w.chan).count v := by
  obtain ⟨hinv, -⟩ := reachable_inv hp
  have h1 : sentOf es = recvOf es ++ residents w.chan := by
    rw [residents_eq hinv, hinv.received_eq, List.take_append_drop]
  exact ⟨h1, by rw [h1, List.count_append]⟩

theorem C8_payload_conservation_witness :
    sentOf [Event.send 3, Event.send 4, Event.recv (3 : Nat), Event.dropConsumer] =
      recvOf [Event.send 3, Event.send 4, Event.recv (3 : Nat), Event.dropConsumer] ++
        residents {
          message_buffer :=
            ((((List.replicate BUFFER_SIZE (none : Option Nat)).set 0 (some 3)).set 1
              (some 4)).set 0 none)
          read_index := 1, write_index := 2, producer_counter := 1, consumer_counter := 0 } ∧
    (sentOf [Event.send 3, Event.send 4, Event.recv (3 : Nat), Event.dropConsumer]).count 4 =
      (recvOf [Event.send 3, Event.send 4, Event.recv (3 : Nat), Event.dropConsumer]).count 4 +
        (residents {
          message_buffer :=
            ((((List.replicate BUFFER_SIZE (none : Option Nat)).set 0 (some 3)).set 1
              (some 4)).set 0 none)
          read_index := 1, write_index := 2, producer_counter := 1,
          consumer_counter := 0 }).count 4 :=
  C8_payload_conservation
    (Path.cons (Step.send rfl rfl) (Path.cons (Step.send rfl rfl)
      (Path.cons (Step.recv rfl rfl) (Path.cons (Step.dropConsumer rfl) Path.nil)))) 4

/-- C9 (implicit): in every reachable state, whenever `recv`'s branch
`read_index < write_index` is taken, the slot `read_index % BUFFER_SIZE`
holds `Some` value, so the `val.unwrap()` on line 148 never panics — the
success path of `recv` is total under the ring invariant. -/
theorem C9_recv_unwrap_total {T : Type} {es : List (Event T)} {w : World T}
    (hp : Path T (World.init T) es w)
    (hlt : w.chan.read_index < w.chan.write_index) :
    (w.chan.message_buffer.getD (w.chan.read_index % BUFFER_SIZE) none).isSome = true := by
  obtain ⟨hinv, -⟩ := reachable_inv hp
  rw [hinv.live _ (Nat.le_refl _) hlt,
    List.getElem?_eq_getElem (by rw [hinv.sent_len]; exact hlt)]
  rfl

theorem C9_recv_unwrap_total_witness :
    (({ message_buffer := (List.replicate BUFFER_SIZE (none : Option Nat)).set 0 (some 9)
        read_index := 0, write_index := 1, producer_counter := 1, consumer_counter := 1 }
      : ChannelState Nat).message_buffer.getD (0 % BUFFER_SIZE) none).isSome = true :=
  C9_recv_unwrap_total (Path.cons (Step.send rfl rfl) Path.nil) (by decide)

/-- C10 (implicit): `send` inspects `consumer_counter` exactly once, before
entering its retry loop — the loop body depends only on the cursors, not on
`consumer_counter` — so if the counter is nonzero at that single check, the
call can never return `SendError`, no matter how the consumer (including its
destruction) interleaves with the loop iterations; if every observed state has
a full buffer the call just keeps spinning (`Except.ok none`), it still does
not fail. -/
theorem C10_liveness_checked_once {T : Type} (entry st : ChannelState T) (v : T)
    (c : Nat) (obs : List (ChannelState T)) (h : entry.consumer_counter ≠ 0) :
    sendCall entry v obs = .ok (sendLoop v (entry :: obs)) ∧
    sendLoopBody { st with consumer_counter := c } v =
      (sendLoopBody st v).map (fun st1 => { st1 with consumer_counter := c }) ∧
    ((∀ s ∈ entry :: obs,
        ¬(s.write_index ≥ s.read_index ∧ s.write_index < s.read_index + BUFFER_SIZE)) →
      sendCall entry v obs = .ok none) := by
  have h1 : sendCall entry v obs = .ok (sendLoop v (entry :: obs)) := by
    unfold sendCall; rw [if_neg h]
  refine ⟨h1, ?_, ?_⟩
  · unfold sendLoopBody
    dsimp only
    by_cases hg : st.write_index ≥ st.read_index ∧
        st.write_index < st.read_index + BUFFER_SIZE
    · rw [if_pos hg, if_pos hg]; rfl
    · rw [if_neg hg, if_neg hg]; rfl
  · intro hfull
    rw [h1, sendLoop_none v (entry :: obs)]
    intro s hs
    unfold sendLoopBody
    rw [if_neg (hfull s hs)]

theorem C10_liveness_checked_once_witness :
    sendCall (SPSC.new Nat) 1 [] = .ok (sendLoop 1 [SPSC.new Nat]) ∧
    sendLoopBody { SPSC.new Nat with consumer_counter := 0 } 1 =
      (sendLoopBody (SPSC.new Nat) 1).map
        (fun st1 => { st1 with consumer_counter := 0 }) ∧
    ((∀ s ∈ [SPSC.new Nat],
        ¬(s.write_index ≥ s.read_index ∧ s.write_index < s.read_index + BUFFER_SIZE)) →
      sendCall (SPSC.new Nat) 1 [] = .ok none) :=
  C10_liveness_checked_once (SPSC.new Nat) (SPSC.new Nat) 1 0 [] (by decide)

end Spsc
